import Mathlib

attribute [local semireducible] Rat.add Rat.mul Rat.inv Rat.sub

/-!
# Verification of the aipha trading-flow core

A shallow embedding of the signal-detection and event-labeling core of the
aipha repository.  Prices, volumes and indicator values are modelled as
rationals; a pandas `NaN` cell is modelled as `Option.none`, and the distinct
pandas missing value `pd.NA` (whose truth value raises) is modelled by a
dedicated constructor.  DataFrames become Lean structures of column lists,
with the row index identified with the row position (the tables the pipeline
consumes carry a default range index).

Sections follow the source modules:
* `PotentialCaptureEngine.label_events` (labelers/potential_capture_engine.py)
* `AccumulationZoneDetector.detect` (detectors/accumulation_zone_detector.py)
* `KeyCandleDetector.detect` (detectors/key_candle_detector.py)
* `SignalCombiner.detect` (detectors/signal_combiner.py)
* `SignalOrchestrator.generate_signals` (signal_orchestrator.py)
-/

/-- One OHLCV bar (a row of the price table).  Field `open_` renders the
`open` column, which clashes with a Lean keyword. -/
structure Bar where
  open_ : ℚ := 0
  high : ℚ := 0
  low : ℚ := 0
  close : ℚ := 0
  volume : ℚ := 0
  deriving Repr, DecidableEq, Inhabited

/-- Maximum of a list of rationals, `0` on the empty list (only ever used on
non-empty segments). -/
def qmax : List ℚ → ℚ
  | [] => 0
  | x :: xs => xs.foldl max x

/-- `pandas_ta.true_range`: `max(high − low, |high − prev_close|,
|low − prev_close|)`, with the first entry NaN (no previous close). -/
def trueRange (bars : List Bar) : List (Option ℚ) :=
  (List.range bars.length).map fun i =>
    if i = 0 then none
    else
      let b := bars.getD i default
      let pc := (bars.getD (i - 1) default).close
      some (max (b.high - b.low) (max |b.high - pc| |b.low - pc|))

/-- One entry of `Series.ewm(alpha=1/per, min_periods=per).mean()` (pandas
defaults `adjust=True`, `ignore_na=False`): the weighted mean of the non-NaN
observations at positions `j ≤ t` with weights `(1−α)^(t−j)`, NaN until `per`
non-NaN observations have been seen. -/
def rmaAt (per : ℕ) (xs : List (Option ℚ)) (t : ℕ) : Option ℚ :=
  let obs := (List.range (t + 1)).filterMap fun j => (xs.getD j none).map fun v => (j, v)
  if per ≤ obs.length then
    let al : ℚ := 1 / per
    let num := obs.foldl (fun acc p => acc + (1 - al) ^ (t - p.1) * p.2) 0
    let den := obs.foldl (fun acc p => acc + (1 - al) ^ (t - p.1)) 0
    some (num / den)
  else none

/-- `pandas_ta.atr(high, low, close, length=per)` with the default RMA
smoothing: the Wilder moving average of the true range. -/
def atrSeries (per : ℕ) (bars : List Bar) : List (Option ℚ) :=
  let tr := trueRange bars
  (List.range bars.length).map fun t => rmaAt per tr t

/-! ## PotentialCaptureEngine -/

/-- Configuration of `PotentialCaptureEngine.__init__` with the source's
defaults. -/
structure PCEConfig where
  profit_factors : List ℚ := [1, 2, 3]
  stop_loss_factor : ℚ := 1
  time_limit : ℕ := 20
  drawdown_threshold : ℚ := 8 / 10
  atr_period : ℕ := 14
  deriving Repr, DecidableEq

/-- Insert into a sorted list, keeping ascending order. -/
def insertSorted (x : ℚ) : List ℚ → List ℚ
  | [] => [x]
  | y :: ys => if x ≤ y then x :: y :: ys else y :: insertSorted x ys

/-- `sorted(...)` on a list of rationals (ascending), as applied to
`profit_factors` in `PotentialCaptureEngine.__init__`. -/
def sortAsc (l : List ℚ) : List ℚ := l.foldr insertSorted []

/-- The take-profit scan of one bar: walk `sorted(tp_levels.items(),
reverse=True)` — the levels `1..N` paired with their prices, highest level
first — and return the first level whose price is reached by the bar's high
(`row['high'] >= tp_price`). -/
def tpHit (tps : List ℚ) (hi : ℚ) : Option ℕ :=
  (((List.range tps.length).zip tps).reverse).findSome? fun p =>
    if p.2 ≤ hi then some (p.1 + 1) else none

/-- Highest high over rows `ev .. t` inclusive
(`df.loc[event_idx:t_step]['high'].max()`). -/
def peakHigh (bars : List Bar) (ev t : ℕ) : ℚ :=
  qmax (((bars.drop ev).take (t + 1 - ev)).map Bar.high)

/-- The stop-loss branch of the walk: drawdown quality filter.  `drawdown`
is `(peak − current_low) / (peak − entry)` when the unrealized gain is
positive, else `0`; label `0` when `drawdown ≥ threshold`, else `−1`. -/
def slLabel (thr entry peak curLow : ℚ) : Int :=
  let unrealized := peak - entry
  let drawdown := if 0 < unrealized then (peak - curLow) / unrealized else 0
  if thr ≤ drawdown then 0 else -1

/-- The forward walk of `label_events` over the path row positions (the
`for t_step, row in price_path.iterrows()` loop): take-profit first, then
stop-loss, label `0` when the path is exhausted. -/
def walkPath (bars : List Bar) (tps : List ℚ) (sl thr entry : ℚ) (ev : ℕ) :
    List ℕ → Int
  | [] => 0
  | t :: rest =>
    let b := bars.getD t default
    match tpHit tps b.high with
    | some lvl => (lvl : Int)
    | none =>
      if b.low ≤ sl then slLabel thr entry (peakHigh bars ev t) b.low
      else walkPath bars tps sl thr entry ev rest

/-- Label of a single event row: `0` straight away when the ATR at the event
bar is NaN or zero (the `continue` keeps the initial value of
`pd.Series(0, index=valid_events)`), otherwise the barrier walk over
`df.iloc[loc+1 : min(loc+time_limit, len−1)+1]`. -/
def labelFor (cfg : PCEConfig) (bars : List Bar) (atr : List (Option ℚ)) (ev : ℕ) : Int :=
  let entry := (bars.getD ev default).close
  match atr.getD ev none with
  | none => 0
  | some a =>
    if a = 0 then 0
    else
      let sl := entry - a * cfg.stop_loss_factor
      let tps := (sortAsc cfg.profit_factors).map fun pf => entry + a * pf
      let pend := min (ev + cfg.time_limit) (bars.length - 1)
      walkPath bars tps sl cfg.drawdown_threshold entry ev
        (List.range' (ev + 1) (pend - ev))

/-- Recursion for `uniqueKeepFirst`: drop every element already seen. -/
def uniqueKeepFirstAux (seen : List ℕ) : List ℕ → List ℕ
  | [] => []
  | x :: xs =>
    if x ∈ seen then uniqueKeepFirstAux seen xs
    else x :: uniqueKeepFirstAux (x :: seen) xs

/-- `pd.Series(values).unique()`: drop duplicates keeping the first
occurrence. -/
def uniqueKeepFirst (l : List ℕ) : List ℕ := uniqueKeepFirstAux [] l

/-- `PotentialCaptureEngine.label_events`: compute the ATR column, keep the
deduplicated events that are present in the index, and map each to its label
(every kept event appears in the output series, initialized to `0`). -/
def labelEvents (cfg : PCEConfig) (bars : List Bar) (tEvents : List ℕ) :
    List (ℕ × Int) :=
  let atr := atrSeries cfg.atr_period bars
  let valid := (uniqueKeepFirst tEvents).filter fun e => decide (e < bars.length)
  valid.map fun ev => (ev, labelFor cfg bars atr ev)

/-! ## AccumulationZoneDetector -/

/-- Configuration of `AccumulationZoneDetector.__init__` with the source's
defaults. -/
structure AZDConfig where
  atr_period : ℕ := 14
  atr_multiplier : ℚ := 3 / 2
  min_zone_bars : ℕ := 5
  volume_ma_period : ℕ := 20
  volume_threshold : ℚ := 11 / 10
  deriving Repr, DecidableEq

/-- `volume.rolling(window=w, min_periods=w).mean()`: NaN until a full
window of `w` bars is available, then the mean of the trailing window. -/
def volMaSeries (w : ℕ) (bars : List Bar) : List (Option ℚ) :=
  (List.range bars.length).map fun i =>
    if 0 < w ∧ w ≤ i + 1 then
      some ((((bars.drop (i + 1 - w)).take w).map Bar.volume).sum / w)
    else none

/-- A materialized accumulation zone: the inclusive row range that got
`in_accumulation_zone = True` and its `zone_id`. -/
structure Zone where
  startIdx : ℕ
  endIdx : ℕ
  zoneId : ℕ
  deriving Repr, DecidableEq

/-- The loop state of `AccumulationZoneDetector.detect` together with the
zones materialized so far. -/
structure ZState where
  in_zone : Bool := false
  zone_start : ℕ := 0
  zone_high : ℚ := 0
  zone_low : ℚ := 0
  counter : ℕ := 0
  zones : List Zone := []
  deriving Repr, DecidableEq

/-- The in-zone block of the scan body (`if in_zone:` in the source): extend
the envelope with the current bar; compare its height against the ATR frozen
at the zone start times `atr_multiplier` (a NaN frozen ATR never closes the
zone, since `height > NaN` is False).  On violation the zone ends at the
previous row and is materialized only when it spans at least
`min_zone_bars` rows; otherwise it is discarded silently. -/
def zoneCloseExtend (cfg : AZDConfig) (bars : List Bar) (atr : List (Option ℚ))
    (s : ZState) (i : ℕ) : ZState :=
  if s.in_zone then
    let b := bars.getD i default
    let ch := max s.zone_high b.high
    let cl := min s.zone_low b.low
    let closesZone :=
      match atr.getD s.zone_start none with
      | some a0 => decide (a0 * cfg.atr_multiplier < ch - cl)
      | none => false
    if closesZone then
      let zend := i - 1
      let s' := { s with in_zone := false, zone_start := 0 }
      if cfg.min_zone_bars ≤ zend + 1 - s.zone_start then
        { s' with
            zones := s.zones ++ [⟨s.zone_start, zend, s.counter⟩],
            counter := s.counter + 1 }
      else s'
    else { s with zone_high := ch, zone_low := cl }
  else s

/-- The zone-open block of the scan body (`if not in_zone and
volume_condition_met:` in the source), reading the `in_zone` already updated
by the close block of the same iteration: open a new zone starting at the
current row. -/
def zoneOpen (bars : List Bar) (volCond : Bool) (s1 : ZState) (i : ℕ) : ZState :=
  if s1.in_zone = false ∧ volCond = true then
    { s1 with in_zone := true, zone_start := i,
              zone_high := (bars.getD i default).high,
              zone_low := (bars.getD i default).low }
  else s1

/-- One iteration of the zone-detector scan at row `i`: skip the bar when
either indicator is NaN; otherwise run the close/extend block and then the
open block, whose volume condition is the strict
`volume > volume_ma * volume_threshold`. -/
def zoneStep (cfg : AZDConfig) (bars : List Bar) (atr volMa : List (Option ℚ))
    (s : ZState) (i : ℕ) : ZState :=
  match atr.getD i none, volMa.getD i none with
  | some _, some vm =>
    zoneOpen bars (decide (vm * cfg.volume_threshold < (bars.getD i default).volume))
      (zoneCloseExtend cfg bars atr s i) i
  | _, _ => s

/-- `AccumulationZoneDetector.detect`, reduced to the list of materialized
zones: the sequential scan over all rows followed by the end-of-data close
of a still-open zone (same minimum-length rule). -/
def detectZones (cfg : AZDConfig) (bars : List Bar) : List Zone :=
  let atr := atrSeries cfg.atr_period bars
  let vm := volMaSeries cfg.volume_ma_period bars
  let s := (List.range bars.length).foldl (fun s i => zoneStep cfg bars atr vm s i) {}
  if s.in_zone = true ∧ cfg.min_zone_bars ≤ bars.length - s.zone_start then
    s.zones ++ [⟨s.zone_start, bars.length - 1, s.counter⟩]
  else s.zones

/-- The `in_accumulation_zone` column derived from the materialized zones
(rows of each zone range are set `True`, later writes win). -/
def inZoneFlag (zones : List Zone) (i : ℕ) : Bool :=
  zones.any fun z => decide (z.startIdx ≤ i) && decide (i ≤ z.endIdx)

/-- The `zone_id` column derived from the materialized zones (last write
wins; ranges are in fact disjoint). -/
def zoneIdAt (zones : List Zone) (i : ℕ) : Option ℕ :=
  zones.reverse.findSome? fun z =>
    if z.startIdx ≤ i ∧ i ≤ z.endIdx then some z.zoneId else none

/-! ## DataFrames as column structures -/

/-- A cell of a pandas object column: a float value, the float `NaN`
(comparisons with it are `False`), or `pd.NA` (comparisons with it yield
`NA`, whose truth value raises `TypeError`). -/
inductive RVal where
  | val (q : ℚ)
  | nan
  | na
  deriving Repr, DecidableEq

/-- Truthiness of `cell >= t` for an object-column cell: a float compares
normally, float NaN compares `False`, `pd.NA` propagates to `NA` (`none`),
which has no truth value. -/
def rvalGeTruth (r : RVal) (t : ℚ) : Option Bool :=
  match r with
  | .val q => some (decide (t ≤ q))
  | .nan => some false
  | .na => none

/-- A k-lines DataFrame: the base OHLCV columns plus the columns the
pipeline components may have added (absent column = `none`).  The row index
is the row position. -/
structure Frame where
  open_ : List ℚ := []
  high : List ℚ := []
  low : List ℚ := []
  close : List ℚ := []
  volume : List ℚ := []
  volume_threshold_col : Option (List (Option ℚ)) := none
  body_size : Option (List ℚ) := none
  body_percentage : Option (List ℚ) := none
  is_key_candle : Option (List Bool) := none
  in_accumulation_zone : Option (List Bool) := none
  zone_id : Option (List (Option ℕ)) := none
  trend_r_squared : Option (List RVal) := none
  is_triple_coincidence : Option (List Bool) := none
  final_score : Option (List RVal) := none
  deriving Repr, DecidableEq

instance : Inhabited Frame := ⟨{}⟩

/-- The rows of a frame as bars. -/
def frameBars (f : Frame) : List Bar :=
  (List.range f.high.length).map fun i =>
    { open_ := f.open_.getD i 0, high := f.high.getD i 0, low := f.low.getD i 0,
      close := f.close.getD i 0, volume := f.volume.getD i 0 }

/-! ## KeyCandleDetector -/

/-- Quantile of a list with linear interpolation (the pandas rolling
quantile default): position `q·(n−1)` in the sorted window. -/
def quantileLinear (q : ℚ) (l : List ℚ) : ℚ :=
  let s := sortAsc l
  let pos := q * ((s.length : ℚ) - 1)
  let lo := ⌊pos⌋.toNat
  let a := s.getD lo 0
  let b := s.getD (lo + 1) a
  a + (pos - lo) * (b - a)

/-- The `volume_threshold` column of `KeyCandleDetector.detect`:
`volume.rolling(window=L, min_periods=L).quantile(q).shift(1)`, i.e. the
quantile of the `L` volumes strictly before row `i`, NaN until row `L`. -/
def volThresholdCol (L : ℕ) (q : ℚ) (vols : List ℚ) : List (Option ℚ) :=
  (List.range vols.length).map fun i =>
    if 0 < L ∧ L ≤ i then some (quantileLinear q ((vols.drop (i - L)).take L))
    else none

/-- `KeyCandleDetector.detect` at the value level: computes the four added
columns (`volume_threshold`, `body_size`, `body_percentage`,
`is_key_candle`).  A bar is a raw candidate when its volume strictly exceeds
the (non-NaN) rolling threshold and its body percentage is below the body
threshold; only the first candidate of a consecutive run keeps the flag. -/
def kcDetectFrame (lookback : ℕ) (volQ bodyThr : ℚ) (f : Frame) : Frame :=
  let n := f.high.length
  let vthr := volThresholdCol lookback volQ f.volume
  let bodySize := (List.range n).map fun i => |f.close.getD i 0 - f.open_.getD i 0|
  let bodyPct := (List.range n).map fun i =>
    let rng := f.high.getD i 0 - f.low.getD i 0
    if 0 < rng then bodySize.getD i 0 / rng else 0
  let rawCand := (List.range n).map fun i =>
    (match vthr.getD i none with
     | some t => decide (t < f.volume.getD i 0)
     | none => false)
    && decide (bodyPct.getD i 0 < bodyThr)
  let isKey := (List.range n).map fun i =>
    rawCand.getD i false && !(if i = 0 then false else rawCand.getD (i - 1) false)
  { f with volume_threshold_col := some vthr, body_size := some bodySize,
           body_percentage := some bodyPct, is_key_candle := some isKey }

/-! ## SignalCombiner -/

/-- Row positions of the key candles (`df_res[df_res['is_key_candle']].index`). -/
def keyIdxs (f : Frame) : List ℕ :=
  (List.range f.high.length).filter fun i => (f.is_key_candle.getD []).getD i false

/-- `df_res.loc[max(0, idx − tolerance) : idx, 'in_accumulation_zone'].any()`. -/
def zoneNearby (f : Frame) (tol idx : ℕ) : Bool :=
  ((List.range' (idx - tol) (idx + 1 - (idx - tol))).map fun j =>
      (f.in_accumulation_zone.getD []).getD j false).any id

/-- The per-key-candle test of `SignalCombiner.detect`
(`zone_nearby and quality_trend`): short-circuits to `False` when no window
bar is in a zone; otherwise takes the truth value of
`trend_r_squared >= min_r_squared`, which raises `TypeError` when the cell
is `pd.NA`. -/
def checkCandle (tol : ℕ) (minR2 : ℚ) (f : Frame) (idx : ℕ) : Except String Bool :=
  if zoneNearby f tol idx = false then .ok false
  else
    match rvalGeTruth ((f.trend_r_squared.getD []).getD idx .na) minR2 with
    | some b => .ok b
    | none => .error "boolean value of NA is ambiguous"

/-- The combiner's initialization: the copied frame with
`is_triple_coincidence` set to all-`False`
(`df_res['is_triple_coincidence'] = False`). -/
def scInit (f : Frame) : Frame :=
  { f with is_triple_coincidence := some (List.replicate f.high.length false) }

/-- `SignalCombiner.detect`: copy the frame, initialize
`is_triple_coincidence` to all-`False`, then mark each key candle whose
check passes; the first `pd.NA` truth-value test aborts with the raised
`TypeError`. -/
def scDetect (tol : ℕ) (minR2 : ℚ) (f : Frame) : Except String Frame :=
  let f0 := scInit f
  (keyIdxs f0).foldlM
    (fun acc idx => do
      let b ← checkCandle tol minR2 acc idx
      let marked := some ((acc.is_triple_coincidence.getD []).set idx true)
      if b then pure { acc with is_triple_coincidence := marked }
      else pure acc)
    f0

/-! ## SignalOrchestrator -/

/-- `SignalOrchestrator.generate_signals` after the fetch: the fetched
k-lines table is the argument (storage is an external collaborator); an
empty table is returned unchanged, otherwise `KeyCandleDetector.detect` is
applied with its default configuration — and nothing else. -/
def generateSignals (df : Frame) : Frame :=
  if df.high.length = 0 then df
  else kcDetectFrame 20 (9 / 10) (3 / 10) df

/-! ## Object identity: a store of frame objects

Python DataFrames are mutable heap objects.  A store is the list of live
frame objects; a Python variable holding a frame is an index into it. -/

/-- `KeyCandleDetector.detect` at the object level: the source writes its
four columns directly into the argument frame (`df["..."] = ...`, no copy)
and returns the argument object itself. -/
def kcDetectStore (lookback : ℕ) (volQ bodyThr : ℚ) (st : List Frame) (r : ℕ) :
    List Frame × ℕ :=
  (st.set r (kcDetectFrame lookback volQ bodyThr (st.getD r default)), r)

/-- The value-level result of `AccumulationZoneDetector.detect`: the two
added columns derived from the materialized zones (the intermediate `atr`
and `volume_ma` columns are dropped before returning). -/
def azdDetectFrame (cfg : AZDConfig) (f : Frame) : Frame :=
  let zones := detectZones cfg (frameBars f)
  let n := f.high.length
  { f with in_accumulation_zone := some ((List.range n).map (inZoneFlag zones)),
           zone_id := some ((List.range n).map (zoneIdAt zones)) }

/-- `AccumulationZoneDetector.detect` at the object level: the source first
takes `df_res = df.copy()` (a fresh object), performs every write on the
copy, and returns the copy. -/
def azdDetectStore (cfg : AZDConfig) (st : List Frame) (r : ℕ) :
    List Frame × ℕ :=
  (st ++ [azdDetectFrame cfg (st.getD r default)], st.length)

/-- Whether the combiner run raised, and with which message. -/
def exceptError? : Except String Frame → Option String
  | .error e => some e
  | .ok _ => none

/-! ## Concrete data used by witnesses and counterexamples -/

/-- The flat bar of the engine's test fixture (`open=100, high=105, low=95,
close=100`). -/
def flatBar : Bar := { open_ := 100, high := 105, low := 95, close := 100, volume := 1000 }

/-- A bar whose high never exceeds the entry price `100`. -/
def cappedBar : Bar := { open_ := 100, high := 100, low := 95, close := 100, volume := 1000 }

/-- Three flat bars: too short for the default 14-period ATR. -/
def flat3 : List Bar := [flatBar, flatBar, flatBar]

/-- Clean-loss price path: event at row 1, highs capped at the entry price,
stop hit at row 3. -/
def cleanLossBars : List Bar :=
  [flatBar, cappedBar, cappedBar, { cappedBar with low := 89 }, cappedBar]

/-- Engine configuration with `drawdown_threshold = 0` (a fraction in the
documented `0–1` range). -/
def zeroDDCfg : PCEConfig :=
  { profit_factors := [1, 2], atr_period := 1, time_limit := 20, drawdown_threshold := 0 }

/-- Price path whose event bar (row 1) itself pierces the nearest
take-profit level while every later bar misses both barriers. -/
def touchEventBars : List Bar :=
  [flatBar, { open_ := 100, high := 120, low := 95, close := 100, volume := 1000 },
   flatBar, flatBar]

/-- Engine configuration for `touchEventBars`: TP at `100 + 25·(1/2) = 112.5`,
SL at `75`. -/
def touchEventCfg : PCEConfig :=
  { profit_factors := [1 / 2], stop_loss_factor := 1, time_limit := 2,
    drawdown_threshold := 8 / 10, atr_period := 1 }

/-- Price path where the bar at row 3 touches both the second take-profit
level (high `112`) and the stop level (low `80`) on the same bar, after a
row-2 bar that misses both. -/
def bothBarrierBars : List Bar :=
  [flatBar, flatBar, cappedBar,
   { open_ := 100, high := 112, low := 80, close := 100, volume := 1000 }]

/-- Zone-detector configuration whose volume condition is an exact tie at
every bar: `volume_ma` window 1 makes `volume_ma = volume`, threshold 1. -/
def tieCfg : AZDConfig :=
  { atr_period := 1, atr_multiplier := 1, min_zone_bars := 1,
    volume_ma_period := 1, volume_threshold := 1 }

/-- Zone-detector configuration that opens a zone at every ready bar
(`volume > 0`) and materializes even one-bar zones. -/
def openAllCfg : AZDConfig :=
  { atr_period := 1, atr_multiplier := 1, min_zone_bars := 1,
    volume_ma_period := 1, volume_threshold := 0 }

/-- Bars whose row 2 breaks out of the tight zone opened at row 1. -/
def breakoutBars : List Bar :=
  [flatBar, flatBar, { flatBar with high := 300, low := 50 }, flatBar]

/-- Bars for the close-and-reopen scenario: a quiet bar 1 inside a tight
zone, then a breakout bar 2 with a volume surge. -/
def reopenBars : List Bar :=
  [{ open_ := 100, high := 100, low := 100, close := 100, volume := 10 },
   { open_ := 100, high := 101, low := 99, close := 100, volume := 10 },
   { open_ := 100, high := 300, low := 50, close := 100, volume := 200 }]

/-- An open-zone scan state: zone opened at row 1 with envelope `[99, 101]`. -/
def reopenState : ZState :=
  { in_zone := true, zone_start := 1, zone_high := 101, zone_low := 99 }

/-- An ATR column for `reopenBars` (explicit, as the scan reads it). -/
def reopenAtr : List (Option ℚ) := [none, some 2, some 250]

/-- A volume-mean column for `reopenBars`. -/
def reopenVolMa : List (Option ℚ) := [none, some 10, some 105]

/-- A one-row k-lines table with only the base columns. -/
def oneRowFrame : Frame :=
  { open_ := [100], high := [105], low := [95], close := [100], volume := [1000] }

/-- Two-row frame: a key candle at row 1 with `pd.NA` trend quality and an
accumulation zone at row 0 (inside the lookback window). -/
def naZoneFrame : Frame :=
  { open_ := [100, 100], high := [105, 105], low := [95, 95], close := [100, 100],
    volume := [1000, 1000], is_key_candle := some [false, true],
    in_accumulation_zone := some [true, false], trend_r_squared := some [.na, .na] }

/-- Same as `naZoneFrame` but with no zone anywhere in the window. -/
def naNoZoneFrame : Frame :=
  { naZoneFrame with in_accumulation_zone := some [false, false] }

/-! ## Helper lemmas -/

lemma le_foldl_max (l : List ℚ) : ∀ x y : ℚ, x ≤ y → x ≤ l.foldl max y := by
  induction l with
  | nil => intro x y h; simpa using h
  | cons z zs ih =>
    intro x y h
    exact ih x (max y z) (le_trans h (le_max_left y z))

lemma lookup_map_pair (f : ℕ → Int) (l : List ℕ) (ev : ℕ) (h : ev ∈ l) :
    List.lookup ev (l.map fun e => (e, f e)) = some (f ev) := by
  induction l with
  | nil => cases h
  | cons x xs ih =>
    by_cases hx : ev = x
    · subst hx; simp [List.lookup]
    · have hbeq : (ev == x) = false := beq_eq_false_iff_ne.mpr hx
      rcases List.mem_cons.mp h with h' | h'
      · exact absurd h' hx
      · simpa [List.lookup, hbeq] using ih h'

/-! ## C1: events with undefined or zero ATR -/

/-- C1 (as stated by the spec) is false on the code: an event whose ATR at
the event bar is NaN is not dropped from the output mapping.
`label_events` initializes `labels = pd.Series(0, index=valid_events)` and
the NaN-ATR `continue` keeps that `0`.  With three flat bars the 14-period
ATR is NaN at row 0, yet the event at row 0 is present with label `0`. -/
theorem labelEvents_nan_atr_event_present :
    (atrSeries 14 flat3).getD 0 none = none ∧
    labelEvents {} flat3 [0] = [(0, 0)] ∧
    List.lookup 0 (labelEvents {} flat3 [0]) = some 0 := by decide

/-- C1 amended: an event timestamp present in the bar index whose ATR at
the event bar is NaN or zero is skipped by the walk but stays in the output
mapping, mapped to `0` (indistinguishable from a time-expiry label). -/
theorem labelEvents_nan_or_zero_atr_maps_to_zero
    (cfg : PCEConfig) (bars : List Bar) (tEvents : List ℕ) (ev : ℕ)
    (hmem : ev ∈ uniqueKeepFirst tEvents) (hlen : ev < bars.length)
    (hatr : (atrSeries cfg.atr_period bars).getD ev none = none ∨
            (atrSeries cfg.atr_period bars).getD ev none = some 0) :
    List.lookup ev (labelEvents cfg bars tEvents) = some 0 := by
  unfold labelEvents
  have hvalid : ev ∈ (uniqueKeepFirst tEvents).filter fun e => decide (e < bars.length) := by
    simp [List.mem_filter, hmem, hlen]
  rw [lookup_map_pair _ _ _ hvalid]
  unfold labelFor
  rcases hatr with h | h
  · rw [h]
  · rw [h]
    simp

theorem labelEvents_nan_or_zero_atr_witness :
    List.lookup 0 (labelEvents {} flat3 [0]) = some 0 :=
  labelEvents_nan_or_zero_atr_maps_to_zero {} flat3 [0] 0 (by decide) (by decide)
    (Or.inl (by decide))

/-! ## C4, C5, C10: the barrier walk -/

lemma walkPath_append_misses (bars : List Bar) (tps : List ℚ) (sl thr entry : ℚ)
    (ev : ℕ) (pre suf : List ℕ)
    (hpre : ∀ u ∈ pre, tpHit tps (bars.getD u default).high = none ∧
      ¬ (bars.getD u default).low ≤ sl) :
    walkPath bars tps sl thr entry ev (pre ++ suf) =
      walkPath bars tps sl thr entry ev suf := by
  induction pre with
  | nil => rfl
  | cons x xs ih =>
    obtain ⟨h1, h2⟩ := hpre x (List.mem_cons_self x xs)
    rw [List.cons_append]
    simp only [walkPath, h1, if_neg h2]
    exact ih fun u hu => hpre u (List.mem_cons_of_mem x hu)

lemma tpHit_last (tps : List ℚ) (hi : ℚ) (hhit : ∃ p ∈ tps, p ≤ hi) :
    ∃ i, i < tps.length ∧ tpHit tps hi = some (i + 1) ∧ tps.getD i 0 ≤ hi ∧
      ∀ j, i < j → j < tps.length → hi < tps.getD j 0 := by
  induction tps using List.reverseRecOn with
  | nil => simp at hhit
  | append_singleton l a ih =>
    have hzip : (List.range (l ++ [a]).length).zip (l ++ [a]) =
        ((List.range l.length).zip l) ++ [(l.length, a)] := by
      rw [List.length_append, List.length_singleton, List.range_succ,
        List.zip_append (by simp)]
      simp
    have htp : tpHit (l ++ [a]) hi =
        if a ≤ hi then some (l.length + 1) else tpHit l hi := by
      unfold tpHit
      rw [hzip, List.reverse_append, List.reverse_singleton, List.singleton_append,
        List.findSome?]
      by_cases ha : a ≤ hi
      · simp [ha]
      · simp [ha]
    by_cases ha : a ≤ hi
    · refine ⟨l.length, by simp, ?_, ?_, ?_⟩
      · rw [htp, if_pos ha]
      · rw [List.getD_append_right l [a] 0 l.length (le_refl _)]
        simpa using ha
      · intro j hj1 hj2
        simp only [List.length_append, List.length_singleton] at hj2
        omega
    · have hhit' : ∃ p ∈ l, p ≤ hi := by
        rcases hhit with ⟨p, hp, hple⟩
        rcases List.mem_append.mp hp with h | h
        · exact ⟨p, h, hple⟩
        · rw [List.mem_singleton] at h; subst h; exact absurd hple ha
      obtain ⟨i, hi1, hi2, hi3, hi4⟩ := ih hhit'
      refine ⟨i, ?_, ?_, ?_, ?_⟩
      · simp only [List.length_append, List.length_singleton]; omega
      · rw [htp, if_neg ha]; exact hi2
      · rw [List.getD_append l [a] 0 i hi1]; exact hi3
      · intro j hj1 hj2
        simp only [List.length_append, List.length_singleton] at hj2
        by_cases hjl : j < l.length
        · rw [List.getD_append l [a] 0 j hjl]; exact hi4 j hj1 hjl
        · have hje : j = l.length := by omega
          subst hje
          rw [List.getD_append_right l [a] 0 l.length (le_refl _)]
          simpa using lt_of_not_le ha

/-- C4 (as stated by the spec) fails when `drawdown_threshold = 0` (the
documented range is the fractions `0–1`): on a stop-loss hit whose peak
never exceeded the entry price the code sets `drawdown = 0` (the
`unrealized_gain > 0` guard fails) and `0 >= 0` routes the label to `0`,
where the claim demands `−1`.  Concretely: event at row 1 of
`cleanLossBars` (entry `100`, ATR `5`, stop `95`), the walk reaches row 2
with no take-profit hit and `low ≤ 95`, the peak high `100 ≤ 100 = entry`,
yet the emitted label is `0`. -/
theorem labelEvents_zero_threshold_mislabels :
    (atrSeries 1 cleanLossBars).getD 1 none = some 5 ∧
    tpHit [105, 110] (cleanLossBars.getD 2 default).high = none ∧
    (cleanLossBars.getD 2 default).low ≤ 95 ∧
    peakHigh cleanLossBars 1 2 ≤ 100 ∧
    labelEvents zeroDDCfg cleanLossBars [1] = [(1, 0)] := by decide

/-- C4 amended: with a positive `drawdown_threshold`, the claim holds as
stated.  For a walk whose prefix bars hit neither barrier and that reaches
a bar `t` with no take-profit hit and `low ≤ stop`: if the peak high from
the event bar through `t` is at most the entry price the label is `−1`;
otherwise with `drawdown = (peak − low_t) / (peak − entry)` the label is
`0` when `drawdown ≥ drawdown_threshold` and `−1` otherwise — and the
result is decided at bar `t` (the remaining path is irrelevant).  When
`drawdown_threshold = 0`, the peak ≤ entry case is labelled `0` instead. -/
theorem walkPath_stop_loss_drawdown (bars : List Bar) (tps : List ℚ)
    (sl thr entry : ℚ) (ev : ℕ) (pre : List ℕ) (t : ℕ) (rest : List ℕ)
    (hthr : 0 < thr)
    (hpre : ∀ u ∈ pre, tpHit tps (bars.getD u default).high = none ∧
      ¬ (bars.getD u default).low ≤ sl)
    (htp : tpHit tps (bars.getD t default).high = none)
    (hsl : (bars.getD t default).low ≤ sl) :
    walkPath bars tps sl thr entry ev (pre ++ t :: rest) =
      if peakHigh bars ev t ≤ entry then -1
      else if thr ≤ (peakHigh bars ev t - (bars.getD t default).low) /
          (peakHigh bars ev t - entry) then 0
      else -1 := by
  rw [walkPath_append_misses bars tps sl thr entry ev pre (t :: rest) hpre]
  simp only [walkPath, htp, if_pos hsl]
  unfold slLabel
  by_cases hpe : peakHigh bars ev t ≤ entry
  · have h0 : ¬ 0 < peakHigh bars ev t - entry := by linarith
    have hthr0 : ¬ thr ≤ (0 : ℚ) := not_le.mpr hthr
    simp only [h0, if_false, hthr0, if_pos hpe]
  · have h0 : 0 < peakHigh bars ev t - entry := by
      push_neg at hpe; linarith
    simp only [h0, if_true, if_neg hpe]

theorem walkPath_stop_loss_drawdown_witness :
    walkPath cleanLossBars [105, 110] 95 (8 / 10) 100 1 ([] ++ 2 :: [3, 4]) =
      if peakHigh cleanLossBars 1 2 ≤ 100 then -1
      else if (8 : ℚ) / 10 ≤
          (peakHigh cleanLossBars 1 2 - (cleanLossBars.getD 2 default).low) /
          (peakHigh cleanLossBars 1 2 - 100) then 0
      else -1 :=
  walkPath_stop_loss_drawdown cleanLossBars [105, 110] 95 (8 / 10) 100 1 [] 2 [3, 4]
    (by decide) (by decide) (by decide) (by decide)

/-- C5: on the first path bar where some take-profit level is touched
(after prefix bars that touch nothing), the walk returns the ordinal label
of the highest level whose price is at or below that bar's high, and it
returns it no matter whether the same bar also touches the stop level —
the take-profit scan runs first, so take-profit dominates stop-loss on a
shared bar (no hypothesis on the bar's low is needed). -/
theorem walkPath_tp_highest (bars : List Bar) (tps : List ℚ) (sl thr entry : ℚ)
    (ev : ℕ) (pre : List ℕ) (t : ℕ) (rest : List ℕ)
    (hpre : ∀ u ∈ pre, tpHit tps (bars.getD u default).high = none ∧
      ¬ (bars.getD u default).low ≤ sl)
    (hhit : ∃ p ∈ tps, p ≤ (bars.getD t default).high) :
    ∃ i, i < tps.length ∧
      walkPath bars tps sl thr entry ev (pre ++ t :: rest) = ((i + 1 : ℕ) : Int) ∧
      tps.getD i 0 ≤ (bars.getD t default).high ∧
      ∀ j, i < j → j < tps.length → (bars.getD t default).high < tps.getD j 0 := by
  obtain ⟨i, h1, h2, h3, h4⟩ := tpHit_last tps (bars.getD t default).high hhit
  refine ⟨i, h1, ?_, h3, h4⟩
  rw [walkPath_append_misses bars tps sl thr entry ev pre (t :: rest) hpre]
  simp only [walkPath, h2]

theorem walkPath_tp_highest_witness :
    ∃ i, i < ([105, 110] : List ℚ).length ∧
      walkPath bothBarrierBars [105, 110] 90 (8 / 10) 100 1 ([2] ++ 3 :: []) =
        ((i + 1 : ℕ) : Int) ∧
      ([105, 110] : List ℚ).getD i 0 ≤ (bothBarrierBars.getD 3 default).high ∧
      ∀ j, i < j → j < ([105, 110] : List ℚ).length →
        (bothBarrierBars.getD 3 default).high < ([105, 110] : List ℚ).getD j 0 :=
  walkPath_tp_highest bothBarrierBars [105, 110] 90 (8 / 10) 100 1 [2] 3 []
    (by decide) (by decide)

/-- C10: the event bar itself is checked against no barrier — the walk
starts at the row after the event bar (`df.iloc[loc+1 : ...]`), so when
every bar strictly after the event bar up to the walk end misses both
barriers, the label is `0` by time expiry, with no assumption at all on the
event bar's own high or low (it may well pierce a barrier); yet the peak
used by the drawdown filter does include the event bar's high. -/
theorem labelFor_skips_event_bar (cfg : PCEConfig) (bars : List Bar) (ev : ℕ) (a : ℚ)
    (hev : ev < bars.length)
    (hatr : (atrSeries cfg.atr_period bars).getD ev none = some a) (ha : a ≠ 0)
    (hmiss : ∀ t, ev + 1 ≤ t → t ≤ min (ev + cfg.time_limit) (bars.length - 1) →
      tpHit ((sortAsc cfg.profit_factors).map fun pf =>
          (bars.getD ev default).close + a * pf) (bars.getD t default).high = none ∧
      ¬ (bars.getD t default).low ≤
          (bars.getD ev default).close - a * cfg.stop_loss_factor) :
    labelFor cfg bars (atrSeries cfg.atr_period bars) ev = 0 ∧
    ∀ t, ev ≤ t → (bars.getD ev default).high ≤ peakHigh bars ev t := by
  constructor
  · unfold labelFor
    rw [hatr]
    simp only [ha, if_false]
    rw [show List.range' (ev + 1) (min (ev + cfg.time_limit) (bars.length - 1) - ev) =
        List.range' (ev + 1) (min (ev + cfg.time_limit) (bars.length - 1) - ev) ++ []
      from (List.append_nil _).symm]
    rw [walkPath_append_misses]
    · rfl
    · intro u hu
      rw [List.mem_range'_1] at hu
      exact hmiss u hu.1 (by omega)
  · intro t ht
    unfold peakHigh
    rw [List.drop_eq_getElem_cons hev]
    have htake : t + 1 - ev = (t - ev) + 1 := by omega
    rw [htake, List.take_succ_cons, List.map_cons]
    show _ ≤ qmax (_ :: _)
    unfold qmax
    rw [List.getD_eq_getElem bars default hev]
    exact le_foldl_max _ _ _ (le_refl _)

theorem labelFor_skips_event_bar_witness :
    ((sortAsc touchEventCfg.profit_factors).map fun pf =>
        (touchEventBars.getD 1 default).close + 25 * pf).getD 0 0 ≤
      (touchEventBars.getD 1 default).high ∧
    labelFor touchEventCfg touchEventBars
      (atrSeries touchEventCfg.atr_period touchEventBars) 1 = 0 ∧
    (touchEventBars.getD 1 default).high ≤ peakHigh touchEventBars 1 3 := by
  have hmiss : ∀ t, 1 + 1 ≤ t →
      t ≤ min (1 + touchEventCfg.time_limit) (touchEventBars.length - 1) →
      tpHit ((sortAsc touchEventCfg.profit_factors).map fun pf =>
          (touchEventBars.getD 1 default).close + 25 * pf)
        (touchEventBars.getD t default).high = none ∧
      ¬ (touchEventBars.getD t default).low ≤
          (touchEventBars.getD 1 default).close - 25 * touchEventCfg.stop_loss_factor := by
    intro t h1 h2
    have ht : t = 2 ∨ t = 3 := by
      simp only [touchEventCfg, touchEventBars] at h2 ⊢
      omega
    rcases ht with rfl | rfl
    · exact ⟨by decide, by decide⟩
    · exact ⟨by decide, by decide⟩
  have h := labelFor_skips_event_bar touchEventCfg touchEventBars 1 25
    (by decide) (by decide) (by decide) hmiss
  exact ⟨by decide, h.1, h.2 3 (by decide)⟩

/-! ## C6, C7, C8: the zone scan -/

/-- The invariant carried through the zone scan: every materialized zone is
well-formed and at least `min_zone_bars` rows long, and while a zone is
open its start row lies strictly before the next row to process. -/
def ZInv (cfg : AZDConfig) (n : ℕ) (s : ZState) : Prop :=
  (∀ z ∈ s.zones, z.startIdx ≤ z.endIdx ∧
    cfg.min_zone_bars ≤ z.endIdx + 1 - z.startIdx) ∧
  (s.in_zone = true → s.zone_start < n)

lemma zoneCloseExtend_inv (cfg : AZDConfig) (bars : List Bar)
    (atr : List (Option ℚ)) (s : ZState) (i : ℕ) (h : ZInv cfg i s) :
    ZInv cfg i (zoneCloseExtend cfg bars atr s i) := by
  obtain ⟨hz, hs⟩ := h
  unfold zoneCloseExtend
  split
  next hin =>
    have hsi := hs hin
    split
    next a0 hfrozen =>
      dsimp only
      split
      next hclose =>
        split
        next hmin =>
          constructor
          · intro z hzm
            rcases List.mem_append.mp hzm with hm | hm
            · exact hz z hm
            · rw [List.mem_singleton] at hm
              subst hm
              refine ⟨?_, ?_⟩ <;> (dsimp only; omega)
          · intro hfalse
            simp at hfalse
        next hmin =>
          refine ⟨hz, ?_⟩
          intro hfalse
          simp at hfalse
      next hclose =>
        exact ⟨hz, fun _ => hsi⟩
    next hfrozen =>
      dsimp only
      exact ⟨hz, fun _ => hsi⟩
  next hin =>
    exact ⟨hz, hs⟩

lemma zoneOpen_inv (cfg : AZDConfig) (bars : List Bar) (volCond : Bool)
    (s1 : ZState) (i : ℕ) (h : ZInv cfg i s1) :
    ZInv cfg (i + 1) (zoneOpen bars volCond s1 i) := by
  obtain ⟨hz, hs⟩ := h
  unfold zoneOpen
  split
  next hc => exact ⟨hz, fun _ => Nat.lt_succ_self i⟩
  next hc => exact ⟨hz, fun hin => Nat.lt_succ_of_lt (hs hin)⟩

lemma zoneStep_inv (cfg : AZDConfig) (bars : List Bar)
    (atr volMa : List (Option ℚ)) (s : ZState) (i : ℕ) (h : ZInv cfg i s) :
    ZInv cfg (i + 1) (zoneStep cfg bars atr volMa s i) := by
  unfold zoneStep
  rcases hA : atr.getD i none with _ | a
  · exact ⟨h.1, fun hin => Nat.lt_succ_of_lt (h.2 hin)⟩
  rcases hV : volMa.getD i none with _ | vm
  · exact ⟨h.1, fun hin => Nat.lt_succ_of_lt (h.2 hin)⟩
  exact zoneOpen_inv cfg bars _ _ i (zoneCloseExtend_inv cfg bars atr s i h)

lemma zoneFold_inv (cfg : AZDConfig) (bars : List Bar)
    (atr volMa : List (Option ℚ)) :
    ∀ (m n : ℕ) (s : ZState), ZInv cfg n s →
      ZInv cfg (n + m)
        ((List.range' n m).foldl (fun s i => zoneStep cfg bars atr volMa s i) s) := by
  intro m
  induction m with
  | zero => intro n s h; simpa using h
  | succ m ih =>
    intro n s h
    rw [List.range'_succ, List.foldl_cons]
    have := ih (n + 1) (zoneStep cfg bars atr volMa s n) (zoneStep_inv cfg bars atr volMa s n h)
    have harith : n + 1 + m = n + (m + 1) := by omega
    rwa [harith] at this

/-- C8: every zone materialized by the detector spans at least
`min_zone_bars` rows (`end − start + 1 ≥ min_zone_bars`, with
`start ≤ end`).  A candidate run shorter than the minimum is in the zones
list neither when closed by a tolerance violation nor when closed at series
end, so no row is marked and no `zone_id` is assigned for it (the
`in_accumulation_zone` and `zone_id` columns are derived from this list). -/
theorem detectZones_min_length (cfg : AZDConfig) (bars : List Bar) (z : Zone)
    (hz : z ∈ detectZones cfg bars) :
    z.startIdx ≤ z.endIdx ∧ cfg.min_zone_bars ≤ z.endIdx + 1 - z.startIdx := by
  have h0 : ZInv cfg 0 ({} : ZState) := by
    constructor
    · intro z hzm
      exact absurd hzm (List.not_mem_nil z)
    · intro hfalse
      simp [ZState] at hfalse
  have hinv := zoneFold_inv cfg bars (atrSeries cfg.atr_period bars)
    (volMaSeries cfg.volume_ma_period bars) bars.length 0 {} h0
  rw [Nat.zero_add, ← List.range_eq_range'] at hinv
  unfold detectZones at hz
  dsimp only at hz
  split at hz
  next hcond =>
    rcases List.mem_append.mp hz with hm | hm
    · exact hinv.1 z hm
    · rw [List.mem_singleton] at hm
      subst hm
      have hlt := hinv.2 hcond.1
      refine ⟨?_, ?_⟩ <;> (dsimp only; omega)
  next hcond =>
    exact hinv.1 z hz

theorem detectZones_min_length_witness :
    (⟨1, 1, 0⟩ : Zone).startIdx ≤ (⟨1, 1, 0⟩ : Zone).endIdx ∧
    openAllCfg.min_zone_bars ≤
      (⟨1, 1, 0⟩ : Zone).endIdx + 1 - (⟨1, 1, 0⟩ : Zone).startIdx :=
  detectZones_min_length openAllCfg breakoutBars ⟨1, 1, 0⟩ (by decide)

/-- C6: when the scan is inside a zone at row `i`, both indicators are
ready, the bar pushes the envelope past the frozen-ATR tolerance (so the
old zone closes at row `i − 1`), and the bar itself satisfies the
volume-surge condition, then after this iteration the scan is inside a new
zone whose start is row `i` itself — not the row after. -/
theorem zoneStep_close_then_reopen (cfg : AZDConfig) (bars : List Bar)
    (atr volMa : List (Option ℚ)) (s : ZState) (i : ℕ) (a vm a0 : ℚ)
    (hin : s.in_zone = true)
    (hatr : atr.getD i none = some a) (hvm : volMa.getD i none = some vm)
    (hfrozen : atr.getD s.zone_start none = some a0)
    (hclose : a0 * cfg.atr_multiplier <
      max s.zone_high (bars.getD i default).high -
      min s.zone_low (bars.getD i default).low)
    (hvol : vm * cfg.volume_threshold < (bars.getD i default).volume) :
    (zoneStep cfg bars atr volMa s i).in_zone = true ∧
    (zoneStep cfg bars atr volMa s i).zone_start = i := by
  have hce : (zoneCloseExtend cfg bars atr s i).in_zone = false := by
    unfold zoneCloseExtend
    rw [if_pos hin, hfrozen]
    dsimp only
    rw [if_pos (decide_eq_true hclose)]
    split <;> rfl
  unfold zoneStep
  rw [hatr, hvm]
  dsimp only
  unfold zoneOpen
  rw [if_pos ⟨hce, decide_eq_true hvol⟩]
  exact ⟨rfl, rfl⟩

theorem zoneStep_close_then_reopen_witness :
    (zoneStep tieCfg reopenBars reopenAtr reopenVolMa reopenState 2).in_zone = true ∧
    (zoneStep tieCfg reopenBars reopenAtr reopenVolMa reopenState 2).zone_start = 2 :=
  zoneStep_close_then_reopen tieCfg reopenBars reopenAtr reopenVolMa reopenState 2
    250 105 2 (by decide) (by decide) (by decide) (by decide) (by decide) (by decide)

/-- C7 (as stated by the spec) is false on the code: the zone-open test is
the strict `volume > volume_ma * volume_threshold`, so a bar whose volume
exactly equals `volume_ma × volume_threshold` does NOT open a zone.  With a
1-bar volume window and threshold 1 the tie holds at every ready bar of
`flat3` (volume 1000 = 1000 × 1), the step at row 1 stays out of a zone and
the whole run yields no zone at all, where the claim requires one to open. -/
theorem zoneStep_volume_tie_does_not_open :
    (volMaSeries 1 flat3).getD 1 none = some 1000 ∧
    (atrSeries 1 flat3).getD 1 none = some 10 ∧
    flatBar.volume = 1000 * tieCfg.volume_threshold ∧
    (zoneStep tieCfg flat3 (atrSeries 1 flat3) (volMaSeries 1 flat3) {} 1).in_zone
      = false ∧
    detectZones tieCfg flat3 = [] := by decide

/-- C7 amended: when the scan is not inside a zone and both indicators are
defined at the bar, a new zone opens starting at that bar exactly when the
bar's volume STRICTLY exceeds `volume_ma × volume_threshold`; equality does
not open a zone. -/
theorem zoneStep_open_iff_strict (cfg : AZDConfig) (bars : List Bar)
    (atr volMa : List (Option ℚ)) (s : ZState) (i : ℕ) (a vm : ℚ)
    (hout : s.in_zone = false)
    (hatr : atr.getD i none = some a) (hvm : volMa.getD i none = some vm) :
    ((zoneStep cfg bars atr volMa s i).in_zone = true ∧
      (zoneStep cfg bars atr volMa s i).zone_start = i) ↔
    vm * cfg.volume_threshold < (bars.getD i default).volume := by
  have hce : zoneCloseExtend cfg bars atr s i = s := by
    unfold zoneCloseExtend
    rw [if_neg]
    simp [hout]
  unfold zoneStep
  rw [hatr, hvm, hce]
  dsimp only
  unfold zoneOpen
  by_cases hv : vm * cfg.volume_threshold < (bars.getD i default).volume
  · rw [if_pos ⟨hout, decide_eq_true hv⟩]
    exact iff_of_true ⟨rfl, rfl⟩ hv
  · rw [if_neg fun hand => hv (of_decide_eq_true hand.2)]
    refine iff_of_false ?_ hv
    rintro ⟨h1, -⟩
    rw [hout] at h1
    exact Bool.false_ne_true h1

theorem zoneStep_open_iff_strict_witness :
    ((zoneStep tieCfg flat3 (atrSeries 1 flat3) (volMaSeries 1 flat3) {} 1).in_zone
        = true ∧
      (zoneStep tieCfg flat3 (atrSeries 1 flat3) (volMaSeries 1 flat3) {} 1).zone_start
        = 1) ↔
    (1000 : ℚ) * tieCfg.volume_threshold < (flat3.getD 1 default).volume :=
  zoneStep_open_iff_strict tieCfg flat3 (atrSeries 1 flat3) (volMaSeries 1 flat3)
    {} 1 10 1000 (by decide) (by decide) (by decide)

/-! ## C2: the orchestrator pipeline -/

/-- C2 (as stated by the spec) is false on the code:
`SignalOrchestrator.generate_signals` invokes only `KeyCandleDetector.detect`
— no zone detection, no trend detection, no signal combination, no scoring.
On a non-empty one-row table the result carries the key-candle column but
none of `in_accumulation_zone`, `zone_id`, `trend_r_squared`,
`is_triple_coincidence`, `final_score`. -/
theorem generateSignals_missing_pipeline_columns :
    oneRowFrame.high.length ≠ 0 ∧
    (generateSignals oneRowFrame).is_key_candle = some [false] ∧
    (generateSignals oneRowFrame).in_accumulation_zone = none ∧
    (generateSignals oneRowFrame).zone_id = none ∧
    (generateSignals oneRowFrame).trend_r_squared = none ∧
    (generateSignals oneRowFrame).is_triple_coincidence = none ∧
    (generateSignals oneRowFrame).final_score = none := by decide

/-- C2 amended: for every non-empty fetched table, `generate_signals`
applies exactly the key-candle detector with its default configuration and
nothing else: the result carries `is_key_candle`, while the zone, trend,
combination and scoring columns are exactly those of the input — no other
detector of the pipeline runs. -/
theorem generateSignals_only_key_candles (df : Frame) (hne : df.high.length ≠ 0) :
    generateSignals df = kcDetectFrame 20 (9 / 10) (3 / 10) df ∧
    (generateSignals df).is_key_candle.isSome = true ∧
    (generateSignals df).in_accumulation_zone = df.in_accumulation_zone ∧
    (generateSignals df).zone_id = df.zone_id ∧
    (generateSignals df).trend_r_squared = df.trend_r_squared ∧
    (generateSignals df).is_triple_coincidence = df.is_triple_coincidence ∧
    (generateSignals df).final_score = df.final_score := by
  have hg : generateSignals df = kcDetectFrame 20 (9 / 10) (3 / 10) df := by
    unfold generateSignals
    rw [if_neg hne]
  refine ⟨hg, ?_, ?_, ?_, ?_, ?_, ?_⟩ <;> (rw [hg]; rfl)

theorem generateSignals_only_key_candles_witness :
    generateSignals oneRowFrame = kcDetectFrame 20 (9 / 10) (3 / 10) oneRowFrame ∧
    (generateSignals oneRowFrame).is_key_candle.isSome = true ∧
    (generateSignals oneRowFrame).in_accumulation_zone =
      oneRowFrame.in_accumulation_zone ∧
    (generateSignals oneRowFrame).zone_id = oneRowFrame.zone_id ∧
    (generateSignals oneRowFrame).trend_r_squared = oneRowFrame.trend_r_squared ∧
    (generateSignals oneRowFrame).is_triple_coincidence =
      oneRowFrame.is_triple_coincidence ∧
    (generateSignals oneRowFrame).final_score = oneRowFrame.final_score :=
  generateSignals_only_key_candles oneRowFrame (by decide)

/-! ## C3: the combiner on missing trend quality -/

/-- C3 (as stated by the spec) is false on the code: for a key candle whose
`trend_r_squared` cell is the missing value `pd.NA` (what `TrendDetector`
leaves on rows it does not label), `SignalCombiner.detect` raises
`TypeError: boolean value of NA is ambiguous` as soon as some bar of the
lookback window has `in_accumulation_zone = True`, because
`zone_nearby and quality_trend` then takes the truth value of `NA`. -/
theorem scDetect_na_with_zone_raises :
    (naZoneFrame.is_key_candle.getD []).getD 1 false = true ∧
    (naZoneFrame.trend_r_squared.getD []).getD 1 .na = .na ∧
    zoneNearby naZoneFrame 5 1 = true ∧
    exceptError? (scDetect 5 (8 / 10) naZoneFrame) =
      some "boolean value of NA is ambiguous" := by decide

/-- C3 amended: for a frame whose only key candle is row `idx` and whose
`trend_r_squared` cell there is the missing `pd.NA`: when no bar of the
lookback window is in a zone, `detect` returns normally with
`is_triple_coincidence` all-`False` (the bar stays unmarked); but when some
window bar is in a zone, `detect` raises `TypeError` instead of
returning. -/
theorem scDetect_na_key_candle (tol : ℕ) (minR2 : ℚ) (f : Frame) (idx : ℕ)
    (hkeys : keyIdxs f = [idx])
    (hna : (f.trend_r_squared.getD []).getD idx .na = .na) :
    (zoneNearby f tol idx = false →
      scDetect tol minR2 f = .ok (scInit f)) ∧
    (zoneNearby f tol idx = true →
      scDetect tol minR2 f = .error "boolean value of NA is ambiguous") := by
  have hkeys0 : keyIdxs (scInit f) = [idx] := hkeys
  have hzeq : zoneNearby (scInit f) tol idx = zoneNearby f tol idx := rfl
  have hcell : ((scInit f).trend_r_squared.getD []).getD idx .na = .na := hna
  constructor
  · intro h
    unfold scDetect
    dsimp only
    rw [hkeys0, List.foldlM_cons]
    unfold checkCandle
    rw [hzeq, h]
    rfl
  · intro h
    unfold scDetect
    dsimp only
    rw [hkeys0, List.foldlM_cons]
    unfold checkCandle
    rw [hzeq, h, hcell]
    rfl

theorem scDetect_na_key_candle_witness :
    (zoneNearby naNoZoneFrame 5 1 = false →
      scDetect 5 (8 / 10) naNoZoneFrame = .ok (scInit naNoZoneFrame)) ∧
    (zoneNearby naNoZoneFrame 5 1 = true →
      scDetect 5 (8 / 10) naNoZoneFrame =
        .error "boolean value of NA is ambiguous") :=
  scDetect_na_key_candle 5 (8 / 10) naNoZoneFrame 1 (by decide) (by decide)

/-! ## C9: frame effects of the detectors -/

/-- C9 (as stated by the spec) is false on the code:
`KeyCandleDetector.detect` is not pure in its input object — it writes its
four added columns directly into the caller's DataFrame (`df["..."] = ...`
with no `copy`) and returns that very object.  In a store holding one
one-row frame, detecting through reference `0` hands back reference `0`,
and the frame stored there is no longer the original: it has gained an
`is_key_candle` column. -/
theorem kcDetectStore_mutates_input :
    (kcDetectStore 20 (9 / 10) (3 / 10) [oneRowFrame] 0).2 = 0 ∧
    (kcDetectStore 20 (9 / 10) (3 / 10) [oneRowFrame] 0).1.getD 0 default
      ≠ oneRowFrame ∧
    ((kcDetectStore 20 (9 / 10) (3 / 10) [oneRowFrame] 0).1.getD 0
      default).is_key_candle = some [false] := by decide

/-- C9 amended: `AccumulationZoneDetector.detect` (like the combiner,
scorer and trend detector, which all start from `df.copy()`) leaves the
caller's object unchanged and returns a freshly allocated result;
`KeyCandleDetector.detect`, by contrast, writes its added columns into the
caller's object in place and returns that same reference, so its input is
NOT left unchanged. -/
theorem detect_frame_effects (cfg : AZDConfig) (lb : ℕ) (vq bq : ℚ)
    (st : List Frame) (r : ℕ) (hr : r < st.length) :
    (azdDetectStore cfg st r).1.getD r default = st.getD r default ∧
    (azdDetectStore cfg st r).2 = st.length ∧
    (kcDetectStore lb vq bq st r).2 = r ∧
    (kcDetectStore lb vq bq st r).1.getD r default =
      kcDetectFrame lb vq bq (st.getD r default) := by
  refine ⟨?_, rfl, rfl, ?_⟩
  · unfold azdDetectStore
    exact List.getD_append st _ default r hr
  · unfold kcDetectStore
    dsimp only
    rw [List.getD_eq_getElem _ _ (by simpa using hr)]
    simp [List.getElem_set_self]

theorem detect_frame_effects_witness :
    (azdDetectStore {} [oneRowFrame] 0).1.getD 0 default =
      ([oneRowFrame] : List Frame).getD 0 default ∧
    (azdDetectStore {} [oneRowFrame] 0).2 = ([oneRowFrame] : List Frame).length ∧
    (kcDetectStore 20 (9 / 10) (3 / 10) [oneRowFrame] 0).2 = 0 ∧
    (kcDetectStore 20 (9 / 10) (3 / 10) [oneRowFrame] 0).1.getD 0 default =
      kcDetectFrame 20 (9 / 10) (3 / 10) (([oneRowFrame] : List Frame).getD 0 default) :=
  detect_frame_effects {} 20 (9 / 10) (3 / 10) [oneRowFrame] 0 (by decide)
